import Mathlib

/-!
Formal model of the binary-protocol challenge code (message parser, message
builder, hexdump generator) from the Node.js buffer-exercises file.

Buffers are modelled as `List Nat` of byte values.  JS strings that enter or
leave the codec are represented by their UTF-8 bytes, matching the stated
contract that the codec treats payload text as raw bytes.  JS numbers passed
to the builder are modelled as `Int`; the bounds-checked Buffer writes throw
`RangeError [ERR_OUT_OF_RANGE]`, modelled as `Except.error`.
-/

set_option maxHeartbeats 1000000
set_option maxRecDepth 4000

/-- Result record of `parseMessage`: `{ messageId, length, flags, payload }`,
with the payload string represented by its UTF-8 bytes. -/
structure ParsedMessage where
  messageId : Nat
  length : Nat
  flags : Nat
  payload : List Nat
  deriving DecidableEq, Repr

/-- Bytes of the module-level constant `binaryMessage` (13 bytes): header for
message id 4128, length 5, flags 1, then the UTF-8 bytes of "Hello". -/
def binaryMessage : List Nat :=
  [0x00, 0x00, 0x10, 0x20, 0x00, 0x05, 0x01, 0x00, 0x48, 0x65, 0x6c, 0x6c, 0x6f]

/-- Model of `buf.readUint32BE(off)` for in-bounds reads (the source only ever
reads the 13-byte constant, so the reads never go out of bounds). -/
def readUInt32BE (buf : List Nat) (off : Nat) : Nat :=
  buf.getD off 0 * 2 ^ 24 + buf.getD (off + 1) 0 * 2 ^ 16 +
    buf.getD (off + 2) 0 * 2 ^ 8 + buf.getD (off + 3) 0

/-- Model of `buf.readUint16BE(off)` for in-bounds reads. -/
def readUInt16BE (buf : List Nat) (off : Nat) : Nat :=
  buf.getD off 0 * 2 ^ 8 + buf.getD (off + 1) 0

/-- Model of `buf.readUint16LE(off)` for in-bounds reads. -/
def readUInt16LE (buf : List Nat) (off : Nat) : Nat :=
  buf.getD off 0 + buf.getD (off + 1) 0 * 2 ^ 8

/-- Model of `parseMessage(buf)`.  Exactly as in the source, every field is
read from the module constant `binaryMessage`, not from the parameter `buf`;
`binaryMessage.toString("utf8", 8)` takes the bytes from offset 8 to the end
of that constant. -/
def parseMessage (_buf : List Nat) : ParsedMessage :=
  { messageId := readUInt32BE binaryMessage 0
    length := readUInt16BE binaryMessage 4
    flags := readUInt16LE binaryMessage 6
    payload := binaryMessage.drop 8 }

/-- Node Buffer bounds-checked writes throw `RangeError [ERR_OUT_OF_RANGE]`
carrying the received value and the permitted range. -/
inductive BufferError where
  | outOfRange (received lo hi : Int)
  deriving DecidableEq, Repr

/-- Header bytes a successful `buildMessage` call places in the buffer:
`writeUInt32BE(messageId, 0)` stores the four big-endian id bytes,
`writeUInt16BE(length, 4)` the two big-endian length bytes, and
`writeUInt16LE(flags, 6)` the two little-endian flag bytes. -/
def wireHeader (messageId flags : Int) (length : Nat) : List Nat :=
  [messageId.toNat / 2 ^ 24 % 256, messageId.toNat / 2 ^ 16 % 256,
   messageId.toNat / 2 ^ 8 % 256, messageId.toNat % 256,
   length / 2 ^ 8, length % 2 ^ 8,
   flags.toNat % 256, flags.toNat / 2 ^ 8]

/-- Model of `buildMessage(messageId, flags, payload)`.  The payload argument
stands for `Buffer.from(payload, "utf8")`.  `Buffer.alloc(4 + 2 + 2 + length)`
reserves zeroed bytes; the three header writes validate their value ranges in
program order (`writeUInt32BE`, then `writeUInt16BE` on `length`, then
`writeUInt16LE` on `flags`), each throwing `ERR_OUT_OF_RANGE` when its value
does not fit, and `payloadBuf.copy(buf, 8)` fills the remaining bytes, so a
successful call returns the eight header bytes followed by the payload. -/
def buildMessage (messageId flags : Int) (payload : List Nat) :
    Except BufferError (List Nat) :=
  let length := payload.length
  if messageId < 0 ∨ messageId > 0xFFFFFFFF then
    Except.error (.outOfRange messageId 0 0xFFFFFFFF)
  else if (length : Int) < 0 ∨ (length : Int) > 0xFFFF then
    Except.error (.outOfRange length 0 0xFFFF)
  else if flags < 0 ∨ flags > 0xFFFF then
    Except.error (.outOfRange flags 0 0xFFFF)
  else
    Except.ok (wireHeader messageId flags length ++ payload)

/-- Lowercase hex digit of a value below 16, as produced by `b.toString(16)`. -/
def hexDigitChar (d : Nat) : Char :=
  if d < 10 then Char.ofNat (48 + d) else Char.ofNat (87 + d)

/-- Digit accumulator for `n.toString(16)`: one digit per division step,
exactly as in the JS number-to-string conversion.  The fuel argument (any
value at least `n`) only makes the recursion structural; each step divides
the value by 16, so the fuel is never exhausted. -/
def natToHexCharsGo (fuel n : Nat) (acc : List Char) : List Char :=
  match fuel, n with
  | _, 0 => acc
  | 0, _ + 1 => acc
  | fuel + 1, m + 1 => natToHexCharsGo fuel ((m + 1) / 16) (hexDigitChar ((m + 1) % 16) :: acc)

/-- Model of JS `n.toString(16)` for a nonnegative integer. -/
def natToHexChars (n : Nat) : List Char :=
  if n = 0 then ['0'] else natToHexCharsGo n n []

/-- Model of `s.padStart(w, c)`: left-pad to width `w`, never truncating. -/
def padStartC (cs : List Char) (w : Nat) (c : Char) : List Char :=
  List.replicate (w - cs.length) c ++ cs

/-- Model of `s.padEnd(w, c)`: right-pad to width `w`, never truncating. -/
def padEndC (cs : List Char) (w : Nat) (c : Char) : List Char :=
  cs ++ List.replicate (w - cs.length) c

/-- Hex rendering of one byte: `b.toString(16).padStart(2, "0")`. -/
def byteHex (b : Nat) : List Char :=
  padStartC (natToHexChars b) 2 '0'

/-- Model of `array.join(" ")`. -/
def joinSpace : List (List Char) → List Char
  | [] => []
  | [t] => t
  | t :: ts => t ++ ' ' :: joinSpace ts

/-- Hex column of one chunk before padding:
`Array.from(line).map((b) => b.toString(16).padStart(2, "0")).join(" ")`. -/
def hexColChars (chunk : List Nat) : List Char :=
  joinSpace (chunk.map byteHex)

/-- ASCII column of one chunk: printable bytes (32..126) literally, all
others as a dot. -/
def asciiChars (chunk : List Nat) : List Char :=
  chunk.map fun b => if 32 ≤ b ∧ b ≤ 126 then Char.ofNat b else '.'

/-- One output line of `hexdump`.  The source prints
`console.log(off, "  ", hex.padEnd(48), " ", ascii)`; `console.log` joins its
five arguments with single spaces, hence four spaces after the offset column
and three spaces before the ASCII column. -/
def hexLine (offset : Nat) (chunk : List Nat) : String :=
  String.mk (padStartC (natToHexChars offset) 4 '0' ++ List.replicate 4 ' ' ++
    padEndC (hexColChars chunk) 48 ' ' ++ List.replicate 3 ' ' ++ asciiChars chunk)

/-- Loop of `hexdump`: one printed line per 16-byte slice; the source slices
`buf.slice(offset, offset + 16)` at offsets 0, 16, 32, ... which is the first
16 bytes of the not-yet-dumped remainder. -/
def hexdumpLoop (offset : Nat) (buf : List Nat) : List String :=
  match buf with
  | [] => []
  | b :: rest =>
    hexLine offset ((b :: rest).take 16) :: hexdumpLoop (offset + 16) ((b :: rest).drop 16)
termination_by buf.length
decreasing_by
  simp [List.length_drop]
  omega

/-- Model of `hexdump(buf)`: the sequence of lines printed by `console.log`,
in print order. -/
def hexdump (buf : List Nat) : List String :=
  hexdumpLoop 0 buf

/-- Whitespace splitter used to state the spec's re-parsing law: accumulate
the current token (reversed) and emit it at each space or at the end. -/
def splitWsAux : List Char → List Char → List (List Char)
  | [], acc => if acc = [] then [] else [acc.reverse]
  | c :: rest, acc =>
    if c = ' ' then
      if acc = [] then splitWsAux rest [] else acc.reverse :: splitWsAux rest []
    else splitWsAux rest (c :: acc)

/-- Split a character list on whitespace, dropping empty tokens. -/
def splitWs (cs : List Char) : List (List Char) :=
  splitWsAux cs []

/-- Numeric value of one lowercase hex digit character. -/
def hexDigitVal (c : Char) : Nat :=
  if 48 ≤ c.toNat ∧ c.toNat ≤ 57 then c.toNat - 48
  else if 97 ≤ c.toNat ∧ c.toNat ≤ 102 then c.toNat - 87
  else 0

/-- Numeric value of a hex-digit string. -/
def hexVal (cs : List Char) : Nat :=
  cs.foldl (fun a c => 16 * a + hexDigitVal c) 0

/-- Re-parsing procedure from the spec's hexdump idempotence law: split the
hex column on whitespace and parse each token as a hex byte. -/
def parseHexCol (cs : List Char) : List Nat :=
  (splitWs cs).map hexVal

/-- C10: the decoder is a constant function of its argument — `parseMessage`
reads the module constant `binaryMessage` instead of its parameter, so every
call returns `{messageId := 4128, length := 5, flags := 1, payload := "Hello"}`
(UTF-8 bytes), and any two calls agree. -/
theorem parseMessage_constant (buf₁ buf₂ : List Nat) :
    parseMessage buf₁ =
      { messageId := 4128, length := 5, flags := 1,
        payload := [0x48, 0x65, 0x6c, 0x6c, 0x6f] } ∧
    parseMessage buf₁ = parseMessage buf₂ :=
  ⟨rfl, rfl⟩

/-- C4: length invariant of the decoder — on every (always-successful) decode
the `length` field of the returned record equals the byte length of the
returned payload. -/
theorem parseMessage_length_invariant (buf : List Nat) :
    (parseMessage buf).length = (parseMessage buf).payload.length :=
  rfl

/-- C2 counterexample: decoding the 5-byte buffer `[0,0,0,0,0]` does not fail
with `TruncatedHeader` (or at all); it returns the constant record, because
`parseMessage` neither checks its input's length nor reads its input. -/
theorem parseMessage_short_no_error :
    parseMessage [0, 0, 0, 0, 0] =
      { messageId := 4128, length := 5, flags := 1,
        payload := [0x48, 0x65, 0x6c, 0x6c, 0x6f] } :=
  rfl

/-- C2 amended: the decoder performs no capacity validation and never fails;
for every buffer shorter than 8 bytes it still succeeds and returns the
constant record decoded from `binaryMessage`. -/
theorem parseMessage_short_buffer (buf : List Nat) (_h : buf.length < 8) :
    parseMessage buf =
      { messageId := 4128, length := 5, flags := 1,
        payload := [0x48, 0x65, 0x6c, 0x6c, 0x6f] } :=
  rfl

/-- Witness for the amended C2 theorem at the empty buffer. -/
theorem parseMessage_short_buffer_witness :
    ([] : List Nat).length < 8 ∧
    parseMessage [] =
      { messageId := 4128, length := 5, flags := 1,
        payload := [0x48, 0x65, 0x6c, 0x6c, 0x6f] } :=
  ⟨by decide, parseMessage_short_buffer [] (by decide)⟩

/-- C3 counterexample: an 8-byte buffer whose declared length 65535 exceeds
the 0 available payload bytes is decoded without any `TruncatedPayload`
failure, and a 9-byte buffer declaring length 1 yields payload "Hello"
rather than the single byte at its own offset 8. -/
theorem parseMessage_truncated_payload_cex :
    parseMessage [0, 0, 0, 0, 0xFF, 0xFF, 0, 0] =
      { messageId := 4128, length := 5, flags := 1,
        payload := [0x48, 0x65, 0x6c, 0x6c, 0x6f] } ∧
    (parseMessage [0, 0, 0, 0, 0, 1, 0, 0, 99]).payload ≠ [99] := by
  decide

/-- C3 amended: for every buffer of length at least 8 the decoder ignores both
the input's declared length field and the input's payload bytes: it never
fails, and its payload is always the constant bytes of "Hello" taken from
offset 8 of `binaryMessage`. -/
theorem parseMessage_ignores_length_field (buf : List Nat) (_h : 8 ≤ buf.length) :
    parseMessage buf =
      { messageId := 4128, length := 5, flags := 1,
        payload := binaryMessage.drop 8 } :=
  rfl

/-- Witness for the amended C3 theorem at an 8-byte zero buffer. -/
theorem parseMessage_ignores_length_field_witness :
    8 ≤ (List.replicate 8 0 : List Nat).length ∧
    parseMessage (List.replicate 8 0) =
      { messageId := 4128, length := 5, flags := 1,
        payload := binaryMessage.drop 8 } :=
  ⟨by decide, parseMessage_ignores_length_field (List.replicate 8 0) (by decide)⟩

/-- C1: the round-trip law fails on the code.  Building the Scenario C message
(id 5000, flags 3, payload "Test") yields the correct wire bytes, but decoding
them returns the unrelated constant record `{4128, 5, 1, "Hello"}`, because
`parseMessage` reads the module constant `binaryMessage` instead of its
argument — contradicting the source's own "Parsed back:" test of that very
message. -/
theorem roundtrip_law_fails :
    buildMessage 5000 3 [0x54, 0x65, 0x73, 0x74] =
      Except.ok [0x00, 0x00, 0x13, 0x88, 0x00, 0x04, 0x03, 0x00, 0x54, 0x65, 0x73, 0x74] ∧
    parseMessage [0x00, 0x00, 0x13, 0x88, 0x00, 0x04, 0x03, 0x00, 0x54, 0x65, 0x73, 0x74] =
      { messageId := 4128, length := 5, flags := 1,
        payload := [0x48, 0x65, 0x6c, 0x6c, 0x6f] } ∧
    ({ messageId := 4128, length := 5, flags := 1,
        payload := [0x48, 0x65, 0x6c, 0x6c, 0x6f] } : ParsedMessage) ≠
      { messageId := 5000, length := 4, flags := 3, payload := [0x54, 0x65, 0x73, 0x74] } :=
  ⟨rfl, rfl, by decide⟩

/-- Big-endian 32-bit read at offset 0 of a cons-shaped buffer. -/
theorem readUInt32BE_cons (a b c d : Nat) (l : List Nat) :
    readUInt32BE (a :: b :: c :: d :: l) 0 = a * 2 ^ 24 + b * 2 ^ 16 + c * 2 ^ 8 + d :=
  rfl

/-- Big-endian 16-bit read at offset 4 of a cons-shaped buffer. -/
theorem readUInt16BE_at4 (x0 x1 x2 x3 a b : Nat) (l : List Nat) :
    readUInt16BE (x0 :: x1 :: x2 :: x3 :: a :: b :: l) 4 = a * 2 ^ 8 + b :=
  rfl

/-- Little-endian 16-bit read at offset 6 of a cons-shaped buffer. -/
theorem readUInt16LE_at6 (x0 x1 x2 x3 x4 x5 a b : Nat) (l : List Nat) :
    readUInt16LE (x0 :: x1 :: x2 :: x3 :: x4 :: x5 :: a :: b :: l) 6 = a + b * 2 ^ 8 :=
  rfl

/-- Successful path of `buildMessage`: all three range checks pass. -/
theorem buildMessage_ok (messageId flags : Int) (payload : List Nat)
    (h1 : 0 ≤ messageId) (h2 : messageId < 2 ^ 32)
    (h3 : 0 ≤ flags) (h4 : flags < 2 ^ 16) (h5 : payload.length ≤ 65535) :
    buildMessage messageId flags payload =
      Except.ok (wireHeader messageId flags payload.length ++ payload) := by
  have p32 : (2 : Int) ^ 32 = 4294967296 := by norm_num
  have p16 : (2 : Int) ^ 16 = 65536 := by norm_num
  rw [p32] at h2
  rw [p16] at h4
  simp only [buildMessage]
  rw [if_neg (by omega), if_neg (by omega), if_neg (by omega)]

/-- Failing path of `buildMessage` on an out-of-range message id: the very
first write throws, regardless of the other arguments. -/
theorem buildMessage_id_error (messageId flags : Int) (payload : List Nat)
    (h : messageId < 0 ∨ 2 ^ 32 ≤ messageId) :
    buildMessage messageId flags payload =
      Except.error (.outOfRange messageId 0 4294967295) := by
  have p32 : (2 : Int) ^ 32 = 4294967296 := by norm_num
  rw [p32] at h
  simp only [buildMessage]
  rw [if_pos (by omega)]

/-- Failing path of `buildMessage` on an oversized payload: the length write
throws after the message-id write passed. -/
theorem buildMessage_length_error (messageId flags : Int) (payload : List Nat)
    (h1 : 0 ≤ messageId) (h2 : messageId < 2 ^ 32) (h5 : 65535 < payload.length) :
    buildMessage messageId flags payload =
      Except.error (.outOfRange payload.length 0 65535) := by
  have p32 : (2 : Int) ^ 32 = 4294967296 := by norm_num
  rw [p32] at h2
  simp only [buildMessage]
  rw [if_neg (by omega), if_pos (by omega)]

/-- Failing path of `buildMessage` on out-of-range flags: the flags write
throws after the id and length writes passed. -/
theorem buildMessage_flags_error (messageId flags : Int) (payload : List Nat)
    (h1 : 0 ≤ messageId) (h2 : messageId < 2 ^ 32) (h5 : payload.length ≤ 65535)
    (h : flags < 0 ∨ 2 ^ 16 ≤ flags) :
    buildMessage messageId flags payload =
      Except.error (.outOfRange flags 0 65535) := by
  have p32 : (2 : Int) ^ 32 = 4294967296 := by norm_num
  have p16 : (2 : Int) ^ 16 = 65536 := by norm_num
  rw [p32] at h2
  rw [p16] at h
  simp only [buildMessage]
  rw [if_neg (by omega), if_neg (by omega), if_pos (by omega)]

/-- C5: encoder wire layout — for in-range fields `buildMessage` succeeds and
returns exactly `8 + len(payload)` bytes: the message id as 4 bytes
big-endian at offset 0 (reading them back big-endian recovers it), the
payload length as 2 bytes big-endian at offset 4, the flags as 2 bytes
little-endian at offset 6, and the payload verbatim from offset 8; in
particular `buildMessage 4128 1 "Hello"` yields the 13 bytes
`00 00 10 20 00 05 01 00 48 65 6c 6c 6f`. -/
theorem buildMessage_wire_layout (messageId flags : Int) (payload : List Nat)
    (h1 : 0 ≤ messageId) (h2 : messageId < 2 ^ 32)
    (h3 : 0 ≤ flags) (h4 : flags < 2 ^ 16) (h5 : payload.length ≤ 65535) :
    buildMessage messageId flags payload =
      Except.ok (wireHeader messageId flags payload.length ++ payload) ∧
    (wireHeader messageId flags payload.length ++ payload).length = 8 + payload.length ∧
    readUInt32BE (wireHeader messageId flags payload.length ++ payload) 0 = messageId.toNat ∧
    readUInt16BE (wireHeader messageId flags payload.length ++ payload) 4 = payload.length ∧
    readUInt16LE (wireHeader messageId flags payload.length ++ payload) 6 = flags.toNat ∧
    (wireHeader messageId flags payload.length ++ payload).drop 8 = payload ∧
    buildMessage 4128 1 [0x48, 0x65, 0x6c, 0x6c, 0x6f] =
      Except.ok [0x00, 0x00, 0x10, 0x20, 0x00, 0x05, 0x01, 0x00, 0x48, 0x65, 0x6c, 0x6c, 0x6f] := by
  have e24 : (2 : Nat) ^ 24 = 16777216 := by norm_num
  have e16 : (2 : Nat) ^ 16 = 65536 := by norm_num
  have e8 : (2 : Nat) ^ 8 = 256 := by norm_num
  have p32 : (2 : Int) ^ 32 = 4294967296 := by norm_num
  have hm : messageId.toNat < 4294967296 := by rw [p32] at h2; omega
  refine ⟨buildMessage_ok messageId flags payload h1 h2 h3 h4 h5, ?_, ?_, ?_, ?_, rfl, rfl⟩
  · simp [wireHeader]
    omega
  · simp only [wireHeader, List.cons_append, List.nil_append]
    rw [readUInt32BE_cons, e24, e16, e8]
    omega
  · simp only [wireHeader, List.cons_append, List.nil_append]
    rw [readUInt16BE_at4, e8]
    omega
  · simp only [wireHeader, List.cons_append, List.nil_append]
    rw [readUInt16LE_at6, e8]
    omega

/-- Witness for C5 at the Scenario C input (id 5000, flags 3, payload "Test"). -/
theorem buildMessage_wire_layout_witness :
    buildMessage 5000 3 [0x54, 0x65, 0x73, 0x74] =
      Except.ok (wireHeader 5000 3 ([0x54, 0x65, 0x73, 0x74] : List Nat).length ++
        [0x54, 0x65, 0x73, 0x74]) ∧
    (wireHeader 5000 3 ([0x54, 0x65, 0x73, 0x74] : List Nat).length ++
        [0x54, 0x65, 0x73, 0x74]).length = 8 + ([0x54, 0x65, 0x73, 0x74] : List Nat).length ∧
    readUInt32BE (wireHeader 5000 3 ([0x54, 0x65, 0x73, 0x74] : List Nat).length ++
        [0x54, 0x65, 0x73, 0x74]) 0 = (5000 : Int).toNat ∧
    readUInt16BE (wireHeader 5000 3 ([0x54, 0x65, 0x73, 0x74] : List Nat).length ++
        [0x54, 0x65, 0x73, 0x74]) 4 = ([0x54, 0x65, 0x73, 0x74] : List Nat).length ∧
    readUInt16LE (wireHeader 5000 3 ([0x54, 0x65, 0x73, 0x74] : List Nat).length ++
        [0x54, 0x65, 0x73, 0x74]) 6 = (3 : Int).toNat ∧
    (wireHeader 5000 3 ([0x54, 0x65, 0x73, 0x74] : List Nat).length ++
        [0x54, 0x65, 0x73, 0x74]).drop 8 = [0x54, 0x65, 0x73, 0x74] ∧
    buildMessage 4128 1 [0x48, 0x65, 0x6c, 0x6c, 0x6f] =
      Except.ok [0x00, 0x00, 0x10, 0x20, 0x00, 0x05, 0x01, 0x00, 0x48, 0x65, 0x6c, 0x6c, 0x6f] :=
  buildMessage_wire_layout 5000 3 [0x54, 0x65, 0x73, 0x74]
    (by decide) (by decide) (by decide) (by decide) (by decide)

/-- C6 amended: an oversized payload makes `buildMessage` fail atomically with
no partial result, but the failure is the generic Buffer range error
`RangeError [ERR_OUT_OF_RANGE]` thrown by the 16-bit length write — the same
error an out-of-range `flags` value produces — not a distinct
`PayloadTooLarge` error. -/
theorem buildMessage_payload_too_large (messageId flags : Int) (payload : List Nat)
    (h1 : 0 ≤ messageId) (h2 : messageId < 2 ^ 32) (h5 : 65535 < payload.length) :
    buildMessage messageId flags payload =
      Except.error (.outOfRange payload.length 0 65535) :=
  buildMessage_length_error messageId flags payload h1 h2 h5

/-- Witness for the amended C6 theorem on a 65536-byte payload. -/
theorem buildMessage_payload_too_large_witness :
    buildMessage 0 0 (List.replicate 65536 0) =
      Except.error (.outOfRange (List.replicate 65536 (0 : Nat)).length 0 65535) :=
  buildMessage_payload_too_large 0 0 (List.replicate 65536 0)
    (by decide) (by decide) (by rw [List.length_replicate]; decide)

/-- C6 counterexample: the failure for a 70000-byte payload is literally the
same error value as the failure for `flags = 70000`, so the code raises no
error distinct to oversized payloads. -/
theorem buildMessage_no_distinct_payload_error :
    buildMessage 0 0 (List.replicate 70000 0) =
      Except.error (.outOfRange 70000 0 65535) ∧
    buildMessage 0 70000 [] =
      Except.error (.outOfRange 70000 0 65535) := by
  constructor
  · have h := buildMessage_length_error 0 0 (List.replicate 70000 0)
      (by decide) (by decide) (by rw [List.length_replicate]; decide)
    rw [List.length_replicate] at h
    exact h
  · rfl

/-- C7 amended: an out-of-range message id is rejected by the first header
write (no wrapped or truncated value is ever encoded), and out-of-range flags
are rejected by the flags write once the id and length writes passed; both
rejections throw the generic Buffer `RangeError [ERR_OUT_OF_RANGE]`, not a
distinct `FieldOverflow` error. -/
theorem buildMessage_field_overflow :
    (∀ (messageId flags : Int) (payload : List Nat),
      (messageId < 0 ∨ 2 ^ 32 ≤ messageId) →
      buildMessage messageId flags payload =
        Except.error (.outOfRange messageId 0 4294967295)) ∧
    (∀ (messageId flags : Int) (payload : List Nat),
      0 ≤ messageId → messageId < 2 ^ 32 → payload.length ≤ 65535 →
      (flags < 0 ∨ 2 ^ 16 ≤ flags) →
      buildMessage messageId flags payload =
        Except.error (.outOfRange flags 0 65535)) :=
  ⟨fun messageId flags payload h =>
    buildMessage_id_error messageId flags payload h,
   fun messageId flags payload h1 h2 h5 h =>
    buildMessage_flags_error messageId flags payload h1 h2 h5 h⟩

/-- Witness for the amended C7 theorem: message id 2^32 and flags 2^16. -/
theorem buildMessage_field_overflow_witness :
    buildMessage 4294967296 0 [] =
      Except.error (.outOfRange 4294967296 0 4294967295) ∧
    buildMessage 0 65536 [] =
      Except.error (.outOfRange 65536 0 65535) :=
  ⟨buildMessage_field_overflow.1 4294967296 0 [] (by decide),
   buildMessage_field_overflow.2 0 65536 [] (by decide) (by decide) (by decide) (by decide)⟩

/-- C7 counterexample: `flags = 100000` fails with exactly the same error
value as a 100000-byte payload, so the rejection is not a distinct
`FieldOverflow` error peculiar to numeric fields. -/
theorem buildMessage_no_distinct_overflow_error :
    buildMessage 0 100000 [] =
      Except.error (.outOfRange 100000 0 65535) ∧
    buildMessage 0 0 (List.replicate 100000 0) =
      Except.error (.outOfRange 100000 0 65535) := by
  constructor
  · rfl
  · have h := buildMessage_length_error 0 0 (List.replicate 100000 0)
      (by decide) (by decide) (by rw [List.length_replicate]; decide)
    rw [List.length_replicate] at h
    exact h

/-- Unfolding of `hexdumpLoop` on a nonempty buffer. -/
theorem hexdumpLoop_cons (offset b : Nat) (rest : List Nat) :
    hexdumpLoop offset (b :: rest) =
      hexLine offset ((b :: rest).take 16) ::
        hexdumpLoop (offset + 16) ((b :: rest).drop 16) := by
  rw [hexdumpLoop]

/-- Line count of the hexdump loop, by strong induction on the buffer length. -/
theorem hexdumpLoop_length (n : Nat) :
    ∀ (buf : List Nat) (offset : Nat), buf.length ≤ n →
      (hexdumpLoop offset buf).length = (buf.length + 15) / 16 := by
  induction n with
  | zero =>
    intro buf offset h
    cases buf with
    | nil => simp [hexdumpLoop]
    | cons b rest => simp at h
  | succ n ih =>
    intro buf offset h
    cases buf with
    | nil => simp [hexdumpLoop]
    | cons b rest =>
      have hlen : ((b :: rest).drop 16).length ≤ n := by
        simp only [List.length_drop, List.length_cons]
        simp only [List.length_cons] at h
        omega
      rw [hexdumpLoop_cons, List.length_cons, ih _ (offset + 16) hlen]
      simp only [List.length_drop, List.length_cons]
      omega

/-- C8: `hexdump` emits exactly `ceil(len(buffer) / 16)` lines — one per
16-byte chunk taken in buffer order — and in particular zero lines for a
zero-length buffer. -/
theorem hexdump_line_count (buf : List Nat) :
    (hexdump buf).length = (buf.length + 15) / 16 :=
  hexdumpLoop_length buf.length buf 0 le_rfl

/-- The i-th line of the hexdump loop covers the i-th 16-byte chunk. -/
theorem hexdumpLoop_get (i : Nat) :
    ∀ (buf : List Nat) (offset : Nat), 16 * i < buf.length →
      (hexdumpLoop offset buf)[i]? =
        some (hexLine (offset + 16 * i) ((buf.drop (16 * i)).take 16)) := by
  induction i with
  | zero =>
    intro buf offset h
    cases buf with
    | nil => simp at h
    | cons b rest =>
      rw [hexdumpLoop_cons]
      simp
  | succ i ih =>
    intro buf offset h
    cases buf with
    | nil => simp at h
    | cons b rest =>
      have h16 : 16 * i < ((b :: rest).drop 16).length := by
        simp only [List.length_drop, List.length_cons]
        simp only [List.length_cons] at h
        omega
      rw [hexdumpLoop_cons, List.getElem?_cons_succ, ih _ (offset + 16) h16,
        List.drop_drop]
      have e1 : offset + 16 + 16 * i = offset + 16 * (i + 1) := by ring
      have e2 : 16 + 16 * i = 16 * (i + 1) := by ring
      rw [e1, e2]

/-- Facts about the two-digit hex rendering of a byte, by full enumeration:
it re-parses to the byte, is nonempty, and contains no space. -/
theorem byteHex_spec :
    ∀ b < 256, hexVal (byteHex b) = b ∧ byteHex b ≠ [] ∧ ' ' ∉ byteHex b := by
  decide

/-- The whitespace splitter consumes trailing spaces, emitting at most the
pending token. -/
theorem splitWsAux_spaces (k : Nat) :
    ∀ acc : List Char, splitWsAux (List.replicate k ' ') acc =
      if acc = [] then [] else [acc.reverse] := by
  induction k with
  | zero => intro acc; simp [splitWsAux]
  | succ k ih =>
    intro acc
    rw [List.replicate_succ]
    by_cases h : acc = []
    · simp [splitWsAux, h, ih]
    · simp [splitWsAux, h, ih]

/-- The whitespace splitter moves a space-free prefix into its accumulator. -/
theorem splitWsAux_no_space (t : List Char) :
    ∀ (s acc : List Char), (∀ c ∈ t, c ≠ ' ') →
      splitWsAux (t ++ s) acc = splitWsAux s (t.reverse ++ acc) := by
  induction t with
  | nil => intro s acc _; simp
  | cons c t ih =>
    intro s acc h
    have hc : c ≠ ' ' := h c (List.mem_cons_self c t)
    simp only [List.cons_append, splitWsAux, if_neg hc, List.append_eq]
    rw [ih s (c :: acc) fun x hx => h x (List.mem_cons_of_mem c hx)]
    simp

/-- One splitter step at a space with a pending token. -/
theorem splitWsAux_space_cons (s acc : List Char) (h : acc ≠ []) :
    splitWsAux (' ' :: s) acc = acc.reverse :: splitWsAux s [] := by
  simp [splitWsAux, h]

/-- Splitting a space-joined token list (with trailing padding) on whitespace
recovers the tokens, provided every token is nonempty and space-free. -/
theorem splitWs_joinSpace (tokens : List (List Char)) (k : Nat)
    (h : ∀ t ∈ tokens, t ≠ [] ∧ ∀ c ∈ t, c ≠ ' ') :
    splitWs (joinSpace tokens ++ List.replicate k ' ') = tokens := by
  induction tokens with
  | nil =>
    simp only [joinSpace, List.nil_append, splitWs]
    rw [splitWsAux_spaces]
    simp
  | cons t ts ih =>
    obtain ⟨ht1, ht2⟩ := h t (List.mem_cons_self t ts)
    cases ts with
    | nil =>
      simp only [joinSpace, splitWs]
      rw [splitWsAux_no_space t _ [] ht2, List.append_nil, splitWsAux_spaces]
      simp [ht1]
    | cons t2 ts2 =>
      simp only [joinSpace, splitWs]
      rw [List.append_assoc, List.cons_append,
        splitWsAux_no_space t _ [] ht2, List.append_nil,
        splitWsAux_space_cons _ _ (by simpa using ht1), List.reverse_reverse]
      congr 1
      exact ih fun x hx => h x (List.mem_cons_of_mem t hx)

/-- Spec re-parsing law at chunk level: splitting the space-padded hex column
on whitespace and parsing the tokens as hex bytes recovers the chunk. -/
theorem parseHexCol_padEnd (chunk : List Nat) (w : Nat) (h : ∀ b ∈ chunk, b < 256) :
    parseHexCol (padEndC (hexColChars chunk) w ' ') = chunk := by
  have htok : ∀ t ∈ chunk.map byteHex, t ≠ [] ∧ ∀ c ∈ t, c ≠ ' ' := by
    intro t ht
    obtain ⟨b, hb, rfl⟩ := List.mem_map.mp ht
    obtain ⟨_, h2, h3⟩ := byteHex_spec b (h b hb)
    exact ⟨h2, fun c hc hcs => h3 (hcs ▸ hc)⟩
  unfold parseHexCol padEndC hexColChars
  rw [splitWs_joinSpace (chunk.map byteHex) _ htok, List.map_map]
  have hval : ∀ b ∈ chunk, (hexVal ∘ byteHex) b = id b := fun b hb =>
    (byteHex_spec b (h b hb)).1
  rw [List.map_congr_left hval, List.map_id]

/-- Digit-count bound for the hex digit accumulator. -/
theorem natToHexCharsGo_length (k : Nat) :
    ∀ (fuel n : Nat) (acc : List Char), n < 16 ^ k →
      (natToHexCharsGo fuel n acc).length ≤ k + acc.length := by
  induction k with
  | zero =>
    intro fuel n acc h
    rw [pow_zero] at h
    have hn : n = 0 := by omega
    subst hn
    cases fuel <;> simp [natToHexCharsGo]
  | succ k ih =>
    intro fuel n acc h
    cases n with
    | zero => cases fuel <;> simp [natToHexCharsGo]
    | succ m =>
      cases fuel with
      | zero => simp [natToHexCharsGo]
      | succ f =>
        rw [show natToHexCharsGo (f + 1) (m + 1) acc =
              natToHexCharsGo f ((m + 1) / 16) (hexDigitChar ((m + 1) % 16) :: acc) from rfl]
        have hdiv : (m + 1) / 16 < 16 ^ k := by
          rw [Nat.div_lt_iff_lt_mul (by norm_num)]
          calc m + 1 < 16 ^ (k + 1) := h
            _ = 16 ^ k * 16 := by ring
        have hrec := ih f ((m + 1) / 16) (hexDigitChar ((m + 1) % 16) :: acc) hdiv
        simp only [List.length_cons] at hrec
        omega

/-- Offsets below 2^16 render as at most four hex digits. -/
theorem natToHexChars_length_le4 (n : Nat) (h : n < 65536) :
    (natToHexChars n).length ≤ 4 := by
  unfold natToHexChars
  by_cases h0 : n = 0
  · simp [h0]
  · rw [if_neg h0]
    have e : (16 : Nat) ^ 4 = 65536 := by norm_num
    have hlen := natToHexCharsGo_length 4 n n [] (by rw [e]; exact h)
    simpa using hlen

/-- Length of a left-padded string: padding never truncates. -/
theorem padStartC_length (cs : List Char) (w : Nat) (c : Char) :
    (padStartC cs w c).length = w - cs.length + cs.length := by
  simp [padStartC]

/-- C9 amended: each hexdump line is the chunk's starting offset in lowercase
hex zero-padded to at least four digits (exactly four whenever the offset is
below 2^16, hence for every buffer of at most 65536 bytes), then four spaces,
then the hex column — one two-digit lowercase hex string per source byte,
single-space separated, space-padded to width 16 * 3 — then three spaces,
then the ASCII column mapping each byte b with 32 <= b <= 126 to chr(b) and
every other byte to a dot; splitting the padded hex column on whitespace and
parsing the tokens as hex bytes reconstructs exactly that line's source
bytes. -/
theorem hexdump_line_format (buf : List Nat) (i : Nat)
    (hb : ∀ b ∈ buf, b < 256) (hi : 16 * i < buf.length) :
    (hexdump buf)[i]? =
      some (String.mk (padStartC (natToHexChars (16 * i)) 4 '0' ++
        List.replicate 4 ' ' ++
        padEndC (hexColChars ((buf.drop (16 * i)).take 16)) 48 ' ' ++
        List.replicate 3 ' ' ++ asciiChars ((buf.drop (16 * i)).take 16))) ∧
    4 ≤ (padStartC (natToHexChars (16 * i)) 4 '0').length ∧
    (16 * i < 65536 → (padStartC (natToHexChars (16 * i)) 4 '0').length = 4) ∧
    parseHexCol (padEndC (hexColChars ((buf.drop (16 * i)).take 16)) 48 ' ') =
      (buf.drop (16 * i)).take 16 ∧
    asciiChars ((buf.drop (16 * i)).take 16) =
      ((buf.drop (16 * i)).take 16).map
        (fun b => if 32 ≤ b ∧ b ≤ 126 then Char.ofNat b else '.') := by
  refine ⟨?_, ?_, ?_, ?_, rfl⟩
  · have h := hexdumpLoop_get i buf 0 hi
    simpa [hexdump, hexLine] using h
  · rw [padStartC_length]
    omega
  · intro hlt
    rw [padStartC_length]
    have hle := natToHexChars_length_le4 (16 * i) hlt
    omega
  · refine parseHexCol_padEnd _ 48 ?_
    intro b hbmem
    exact hb b (List.mem_of_mem_drop (List.mem_of_mem_take hbmem))

/-- Witness for the amended C9 theorem on the two-byte buffer "He", line 0. -/
theorem hexdump_line_format_witness :
    (hexdump [0x48, 0x65])[0]? =
      some (String.mk (padStartC (natToHexChars (16 * 0)) 4 '0' ++
        List.replicate 4 ' ' ++
        padEndC (hexColChars ((([0x48, 0x65] : List Nat).drop (16 * 0)).take 16)) 48 ' ' ++
        List.replicate 3 ' ' ++
        asciiChars ((([0x48, 0x65] : List Nat).drop (16 * 0)).take 16))) ∧
    4 ≤ (padStartC (natToHexChars (16 * 0)) 4 '0').length ∧
    (16 * 0 < 65536 → (padStartC (natToHexChars (16 * 0)) 4 '0').length = 4) ∧
    parseHexCol (padEndC (hexColChars ((([0x48, 0x65] : List Nat).drop (16 * 0)).take 16)) 48 ' ') =
      (([0x48, 0x65] : List Nat).drop (16 * 0)).take 16 ∧
    asciiChars ((([0x48, 0x65] : List Nat).drop (16 * 0)).take 16) =
      ((([0x48, 0x65] : List Nat).drop (16 * 0)).take 16).map
        (fun b => if 32 ≤ b ∧ b ≤ 126 then Char.ofNat b else '.') :=
  hexdump_line_format [0x48, 0x65] 0 (by decide) (by decide)

/-- C9 counterexample: on a 65537-byte buffer the line for the chunk at
offset 65536 starts with the five-character offset string "10000" —
`padStart(4, "0")` pads but never truncates — so the offset column of a
produced line is not always a 4-digit string. -/
theorem hexdump_offset_not_four_digits :
    (hexdump (List.replicate 65537 0))[4096]? = some (hexLine 65536 [0]) ∧
    (padStartC (natToHexChars 65536) 4 '0').length = 5 ∧
    (hexLine 65536 [0]).data.take 5 = ['1', '0', '0', '0', '0'] := by
  refine ⟨?_, by decide, by decide⟩
  have h := hexdumpLoop_get 4096 (List.replicate 65537 0) 0
    (by rw [List.length_replicate]; norm_num)
  have e2 : (16 : Nat) * 4096 = 65536 := by norm_num
  have e3 : (65537 : Nat) - 65536 = 1 := by norm_num
  rw [e2, Nat.zero_add, List.drop_replicate, e3, List.replicate_one] at h
  rw [show ([0] : List Nat).take 16 = [0] from rfl] at h
  simp only [hexdump]
  exact h
